import Mathlib

/-!
Shallow embedding of the RCIP recipe-format validator
(src/validators/python/rcip_validator.py) and proofs about its
validation rules.

Modelling conventions:
* JSON documents are the inductive `Json` below; JSON numbers are
  modelled as integers (the validator's numeric rules only compare
  against integer bounds).
* Python `dict.get` is `Json.get`/`Json.getD`; on a non-object it
  yields `none` (where CPython would raise, the model treats the value
  as absent, a corner no rule below depends on).
* The external JSON-Schema conformance stage (spec §4.1 treats it as a
  pluggable collaborator; the schema document itself is not part of the
  validator source) is modelled by a parameter `schemaFindings : List
  String`: the already-rendered error lines that stage contributes,
  empty exactly when the document conforms.
* All string scanning is re-implemented by structural recursion over
  `List Char` so that every definition reduces in the kernel.
-/

/-- JSON-like documents consumed by the validator. -/
inductive Json where
  | null : Json
  | bool : Bool → Json
  | num : Int → Json
  | str : String → Json
  | arr : List Json → Json
  | obj : List (String × Json) → Json

/-- First value bound to `key` in an association list. -/
def lookupField : List (String × Json) → String → Option Json
  | [], _ => none
  | (k, v) :: rest, key => if k = key then some v else lookupField rest key

/-- Python `d.get(key)` / `key in d` on a JSON object. -/
def Json.get : Json → String → Option Json
  | .obj fs, key => lookupField fs key
  | _, _ => none

/-- Python `d.get(key, default)`. -/
def Json.getD (j : Json) (key : String) (d : Json) : Json :=
  (j.get key).getD d

/-- The list bound to `key`, or `[]` when absent or not a list
(Python `d.get(key, [])` as used for `ingredients` / `steps` /
`device_profiles`). -/
def getList (j : Json) (key : String) : List Json :=
  match j.get key with
  | some (.arr xs) => xs
  | _ => []

/-- Python truthiness of a JSON value. -/
def truthy : Json → Bool
  | .null => false
  | .bool b => b
  | .num n => n != 0
  | .str s => s.length != 0
  | .arr xs => xs.length != 0
  | .obj fs => fs.length != 0

/-- Is the value a JSON array (Python `isinstance(x, list)`)? -/
def Json.isArr : Json → Bool
  | .arr _ => true
  | _ => false

mutual
/-- Structural equality of JSON values (Python `==` between decoded
values; object comparison is field-list equality, which agrees with
Python on the duplicate-free, order-stable objects handled here). -/
def jbeq : Json → Json → Bool
  | .null, .null => true
  | .bool a, .bool b => a == b
  | .num a, .num b => a == b
  | .str a, .str b => a == b
  | .arr a, .arr b => jbeqList a b
  | .obj a, .obj b => jbeqFields a b
  | _, _ => false

def jbeqList : List Json → List Json → Bool
  | [], [] => true
  | x :: xs, y :: ys => jbeq x y && jbeqList xs ys
  | _, _ => false

def jbeqFields : List (String × Json) → List (String × Json) → Bool
  | [], [] => true
  | (k, v) :: xs, (l, w) :: ys => k == l && jbeq v w && jbeqFields xs ys
  | _, _ => false
end

/-- Python `x in s` for a set of JSON values kept as a list. -/
def jmem (x : Json) (xs : List Json) : Bool :=
  xs.any (fun y => jbeq y x)

/-- Single-quote character, used inside validator messages. -/
def apo : String := String.singleton (Char.ofNat 39)

/-- Opening brace character (for Python `str()` of dicts). -/
def lbr : String := String.singleton (Char.ofNat 123)

/-- Closing brace character (for Python `str()` of dicts). -/
def rbr : String := String.singleton (Char.ofNat 125)

mutual
/-- Python `repr()` of a decoded JSON value (string escapes are not
reproduced; no validator rule depends on them). -/
def pyRepr : Json → String
  | .null => "None"
  | .bool true => "True"
  | .bool false => "False"
  | .num n => toString n
  | .str s => apo ++ s ++ apo
  | .arr xs => "[" ++ pyReprList xs ++ "]"
  | .obj fs => lbr ++ pyReprFields fs ++ rbr

def pyReprList : List Json → String
  | [] => ""
  | [x] => pyRepr x
  | x :: y :: xs => pyRepr x ++ ", " ++ pyReprList (y :: xs)

def pyReprFields : List (String × Json) → String
  | [] => ""
  | [(k, v)] => apo ++ k ++ apo ++ ": " ++ pyRepr v
  | (k, v) :: f :: fs => apo ++ k ++ apo ++ ": " ++ pyRepr v ++ ", " ++ pyReprFields (f :: fs)
end

/-- Python `str()` of a decoded JSON value, as used in f-strings. -/
def pyStr : Json → String
  | .str s => s
  | j => pyRepr j

/-- Does `pre` start the character list `s`? -/
def listStartsWith : List Char → List Char → Bool
  | _, [] => true
  | [], _ :: _ => false
  | c :: cs, d :: ds => c == d && listStartsWith cs ds

/-- Python `s.startswith(p)`. -/
def strStarts (s p : String) : Bool :=
  listStartsWith s.data p.data

/-- Does `pat` occur anywhere in `s` (as a character list)? -/
def containsSub (pat : List Char) : List Char → Bool
  | [] => listStartsWith [] pat
  | c :: rest => listStartsWith (c :: rest) pat || containsSub pat rest

/-- Python `pat in s` for strings. -/
def strContains (s pat : String) : Bool :=
  containsSub pat.data s.data

/-- Characters before the first occurrence of `c`. -/
def takeBefore (c : Char) : List Char → List Char
  | [] => []
  | d :: ds => if d == c then [] else d :: takeBefore c ds

/-- Python `s.split(c)[0]` for a single-character separator. -/
def headBefore (c : Char) (s : String) : String :=
  ⟨takeBefore c s.data⟩

/-- Split a character list at every occurrence of `c`
(Python `s.split(c)` for a single-character separator). -/
def splitChar (c : Char) : List Char → List (List Char)
  | [] => [[]]
  | d :: ds =>
    if d == c then [] :: splitChar c ds
    else
      match splitChar c ds with
      | [] => [[d]]
      | g :: gs => (d :: g) :: gs

/-- ASCII lowercase hex digit `[0-9a-f]`. -/
def isHexLower (c : Char) : Bool :=
  (48 ≤ c.toNat && c.toNat ≤ 57) || (97 ≤ c.toNat && c.toNat ≤ 102)

/-- ASCII alphanumeric `[0-9a-zA-Z]`. -/
def isAlnumAscii (c : Char) : Bool :=
  (48 ≤ c.toNat && c.toNat ≤ 57) || (97 ≤ c.toNat && c.toNat ≤ 122 && 97 ≤ c.toNat)
    || (65 ≤ c.toNat && c.toNat ≤ 90)

/-- A group of exactly `n` lowercase hex digits. -/
def hexGroup (g : List Char) (n : Nat) : Bool :=
  g.length == n && g.all isHexLower

/-- Body of `RECIPE_ID_PATTERN`:
`rcip-[0-9a-f]{8}-[0-9a-f]{4}-[0-9a-f]{4}-[0-9a-f]{4}-[0-9a-f]{12}`
anchored at both ends (hex digits never contain the dash, so matching
the dash-split groups is equivalent to the regex). -/
def recipeIdBody (s : String) : Bool :=
  match splitChar (Char.ofNat 45) s.data with
  | [a, b, c, d, e, f] =>
    a == "rcip".data && hexGroup b 8 && hexGroup c 4 && hexGroup d 4
      && hexGroup e 4 && hexGroup f 12
  | _ => false

/-- Body of `INGREDIENT_ID_PATTERN`: `ing-[0-9a-zA-Z]+` anchored. -/
def ingIdBody (s : String) : Bool :=
  strStarts s "ing-" && (s.data.drop 4).length != 0
    && (s.data.drop 4).all isAlnumAscii

/-- Body of `STEP_ID_PATTERN`: `s-[0-9a-zA-Z]+` anchored. -/
def stepIdBody (s : String) : Bool :=
  strStarts s "s-" && (s.data.drop 2).length != 0
    && (s.data.drop 2).all isAlnumAscii

/-- Python `re.match` of an `^...$`-anchored pattern: the `$` also
matches just before a single trailing newline. -/
def pyFullMatch (body : String → Bool) (s : String) : Bool :=
  body s ||
    (match s.data.getLast? with
     | some c => c == Char.ofNat 10 && body ⟨s.data.dropLast⟩
     | none => false)

/-- `RECIPE_ID_PATTERN.match(v)` for a JSON value (non-strings never
match; CPython would raise a `TypeError` there). -/
def recipeIdOk : Json → Bool
  | .str s => pyFullMatch recipeIdBody s
  | _ => false

/-- `INGREDIENT_ID_PATTERN.match(v)` for a JSON value. -/
def ingIdOk : Json → Bool
  | .str s => pyFullMatch ingIdBody s
  | _ => false

/-- `STEP_ID_PATTERN.match(v)` for a JSON value. -/
def stepIdOk : Json → Bool
  | .str s => pyFullMatch stepIdBody s
  | _ => false

/-- `[a.value for a in Allergen]`. -/
def allergenVocab : List String :=
  ["milk", "eggs", "fish", "shellfish", "tree-nuts", "peanuts", "wheat",
   "gluten", "soybeans", "sesame", "celery", "mustard", "molluscs",
   "lupins", "sulphites", "lactose"]

/-- `[u.value for u in Unit]`. -/
def unitVocab : List String :=
  ["mg", "g", "kg", "oz", "lb", "ml", "l", "tsp", "tbsp", "cup",
   "fl-oz", "pt", "qt", "gal", "pcs", "dozen", "pinch", "dash",
   "handful", "to-taste"]

/-- `[a.value for a in CookingAction]`. -/
def actionVocab : List String :=
  ["add", "mix", "combine", "blend", "cut", "slice", "dice", "chop",
   "mince", "heat", "boil", "simmer", "steam", "fry", "saute", "bake",
   "roast", "grill", "cool", "chill", "freeze", "knead", "fold", "roll",
   "shape", "ferment", "proof", "rest", "strain", "filter", "separate",
   "measure", "weigh", "wait", "dissolve", "prepare", "spread",
   "garnish", "divide"]

/-- `valid_hazards` from `_validate_step`. -/
def hazardVocab : List String :=
  ["hot-surface", "sharp-tool", "electrical", "chemical", "pressure",
   "allergen-cross-contact"]

/-- Membership of a JSON value in a string vocabulary (Python
`x in list_of_str`; non-strings never compare equal). -/
def inVocab (vocab : List String) : Json → Bool
  | .str s => vocab.contains s
  | _ => false

/-- `_get_recipe_info`'s returned summary dictionary. -/
structure RecipeInfo where
  name : Json
  version : Json
  recipe_version : Json
  ingredient_count : Nat
  step_count : Nat
  has_device_profiles : Bool
  has_sensors : Bool
  allergens : List String
  diet_labels : Json
  difficulty : Json
  total_time : Json

/-- The `ValidationResult` dataclass.  `info` starts as the empty
dictionary (`none` here) and is filled at the end of
`validate_recipe`. -/
structure ValidationResult where
  valid : Bool
  errors : List String
  warnings : List String
  info : Option RecipeInfo

/-- `result.errors.append(msg)`. -/
def ValidationResult.addError (r : ValidationResult) (msg : String) : ValidationResult :=
  { r with errors := r.errors ++ [msg] }

/-- `result.valid = False` followed by `result.errors.append(msg)`. -/
def ValidationResult.addErrorInvalid (r : ValidationResult) (msg : String) : ValidationResult :=
  { r with valid := false, errors := r.errors ++ [msg] }

/-- `result.warnings.append(msg)`. -/
def ValidationResult.addWarning (r : ValidationResult) (msg : String) : ValidationResult :=
  { r with warnings := r.warnings ++ [msg] }

/-- The `ValidationStats` dataclass. -/
structure ValidationStats where
  validated : Nat
  passed : Nat
  failed : Nat

/-- The `RCIPValidator` object: its configured schema version and the
running session counters (the loaded schema handle is subsumed by the
`schemaFindings` parameter of `validate_recipe`). -/
structure RCIPValidator where
  schema_version : String
  stats : ValidationStats

/-- A freshly constructed, initialized validator. -/
def mkValidator (sv : String) : RCIPValidator :=
  { schema_version := sv, stats := ⟨0, 0, 0⟩ }

/-- `step.get('step_id', '?')` rendered into an f-string. -/
def stepAttr (step : Json) : String :=
  match step.get "step_id" with
  | some v => pyStr v
  | none => "?"

/-- Recipe-id check of `_validate_custom_rules` (its first statement). -/
def vRecipeId (recipe : Json) (r : ValidationResult) : ValidationResult :=
  match recipe.get "id" with
  | some v =>
    if recipeIdOk v then r
    else r.addErrorInvalid ("Invalid recipe ID format: " ++ pyStr v)
  | none => r

/-- Ingredient-id check of `_validate_ingredient`. -/
def vIngId (ing : Json) (index : Nat) (r : ValidationResult) : ValidationResult :=
  match ing.get "id" with
  | some v =>
    if ingIdOk v then r
    else r.addErrorInvalid ("Ingredient " ++ toString index ++ ": Invalid ID format: " ++ pyStr v)
  | none => r

/-- Allergens check of `_validate_ingredient`: the field must be
present and a list; each member must be in the allergen vocabulary. -/
def vIngAllergens (ing : Json) (index : Nat) (r : ValidationResult) : ValidationResult :=
  match ing.get "allergens" with
  | none => r.addErrorInvalid ("Ingredient " ++ toString index ++ ": Missing required allergens field")
  | some (.arr items) =>
    items.foldl
      (fun r a =>
        if inVocab allergenVocab a then r
        else r.addError ("Ingredient " ++ toString index ++ ": Invalid allergen " ++ apo ++ pyStr a ++ apo))
      r
  | some _ => r.addErrorInvalid ("Ingredient " ++ toString index ++ ": allergens must be an array")

/-- `'value' not in ma or not isinstance(ma['value'], (int, float)) or
ma['value'] < 0` (Python `bool` is an `int`, so booleans pass the
instance check and are never negative). -/
def maValueBad (ma : Json) : Bool :=
  match ma.get "value" with
  | some (.num n) => n < 0
  | some (.bool _) => false
  | _ => true

/-- Value sub-check of the machine-amount rule. -/
def vIngAmountValue (ma : Json) (index : Nat) (r : ValidationResult) : ValidationResult :=
  if maValueBad ma
  then r.addError ("Ingredient " ++ toString index ++ ": machine_amount.value must be non-negative number")
  else r

/-- Unit sub-check of the machine-amount rule. -/
def vIngAmountUnit (ma : Json) (index : Nat) (r : ValidationResult) : ValidationResult :=
  match ma.get "unit" with
  | none => r.addError ("Ingredient " ++ toString index ++ ": machine_amount.unit is required")
  | some u =>
    if inVocab unitVocab u then r
    else r.addWarning ("Ingredient " ++ toString index ++ ": Non-standard unit " ++ apo ++ pyStr u ++ apo)

/-- Machine-amount check of `_validate_ingredient`. -/
def vIngAmount (ing : Json) (index : Nat) (r : ValidationResult) : ValidationResult :=
  match ing.get "machine_amount" with
  | some ma => vIngAmountUnit ma index (vIngAmountValue ma index r)
  | none => r

/-- `_validate_ingredient(ingredient, index, result)`. -/
def _validate_ingredient (ing : Json) (index : Nat) (r : ValidationResult) : ValidationResult :=
  vIngAmount ing index (vIngAllergens ing index (vIngId ing index r))

/-- Step-id check of `_validate_step`. -/
def vStepId (step : Json) (index : Nat) (r : ValidationResult) : ValidationResult :=
  match step.get "step_id" with
  | some v =>
    if stepIdOk v then r
    else r.addErrorInvalid ("Step " ++ toString index ++ ": Invalid ID format: " ++ pyStr v)
  | none => r

/-- Action check of `_validate_step`. -/
def vStepAction (step : Json) (index : Nat) (r : ValidationResult) : ValidationResult :=
  match step.get "action" with
  | some a =>
    if inVocab actionVocab a then r
    else r.addError ("Step " ++ toString index ++ ": Invalid action " ++ apo ++ pyStr a ++ apo)
  | none => r

/-- Hazards check of `_validate_step`: only performed when the field
is present *and* is a list; each member outside the hazard vocabulary
yields a warning. -/
def vStepHazards (step : Json) (index : Nat) (r : ValidationResult) : ValidationResult :=
  match step.get "hazards" with
  | some (.arr hs) =>
    hs.foldl
      (fun r h =>
        if inVocab hazardVocab h then r
        else r.addWarning ("Step " ++ toString index ++ ": Non-standard hazard " ++ apo ++ pyStr h ++ apo))
      r
  | _ => r

/-- `_validate_step(step, index, result)`. -/
def _validate_step (step : Json) (index : Nat) (r : ValidationResult) : ValidationResult :=
  vStepHazards step index (vStepAction step index (vStepId step index r))

/-- `for i, x in enumerate(xs): f(x, i, result)` threading the result. -/
def foldIdx (f : Json → Nat → ValidationResult → ValidationResult) :
    List Json → Nat → ValidationResult → ValidationResult
  | [], _, r => r
  | x :: xs, i, r => foldIdx f xs (i + 1) (f x i r)

/-- `{ing['id'] for ing in recipe.get('ingredients', []) if 'id' in ing}`. -/
def ingredientIds (recipe : Json) : List Json :=
  (getList recipe "ingredients").filterMap (fun ing => ing.get "id")

/-- `{step['step_id'] for step in recipe.get('steps', []) if 'step_id' in step}`. -/
def stepIdSet (recipe : Json) : List Json :=
  (getList recipe "steps").filterMap (fun s => s.get "step_id")

/-- `{dp['id'] for dp in recipe.get('device_profiles', []) if 'id' in dp}`. -/
def deviceIds (recipe : Json) : List Json :=
  (getList recipe "device_profiles").filterMap (fun dp => dp.get "id")

/-- Body of the target loop in `_validate_references`:
`if target.startswith('ing-') and target not in ingredient_ids: ...
elif ':result' in target: ...` for one target entry (non-strings are
skipped by the `isinstance` guard). -/
def vTarget (ingIds stepIds : List Json) (step : Json)
    (r : ValidationResult) (t : Json) : ValidationResult :=
  match t with
  | .str s =>
    if strStarts s "ing-" && !jmem (.str s) ingIds then
      r.addError ("Step " ++ stepAttr step ++ ": Invalid ingredient reference " ++ apo ++ s ++ apo)
    else if strContains s ":result" then
      if jmem (.str (headBefore (Char.ofNat 58) s)) stepIds then r
      else r.addError ("Step " ++ stepAttr step ++ ": Invalid step reference " ++ apo ++ s ++ apo)
    else r
  | _ => r

/-- Target checks of `_validate_references` for one step. -/
def vStepTargets (ingIds stepIds : List Json)
    (r : ValidationResult) (step : Json) : ValidationResult :=
  match step.get "target" with
  | some (.arr ts) => ts.foldl (vTarget ingIds stepIds step) r
  | _ => r

/-- Device-profile reference check of `_validate_references` for one
step: an unknown reference is a warning, never an error. -/
def vDevRef (devIds : List Json) (r : ValidationResult) (step : Json) : ValidationResult :=
  match step.get "device_profile_ref" with
  | some dref =>
    if jmem dref devIds then r
    else r.addWarning ("Step " ++ stepAttr step ++ ": Unknown device profile " ++ apo ++ pyStr dref ++ apo)
  | none => r

/-- `_validate_references(recipe, result)`. -/
def _validate_references (recipe : Json) (r : ValidationResult) : ValidationResult :=
  let r := (getList recipe "steps").foldl
    (vStepTargets (ingredientIds recipe) (stepIdSet recipe)) r
  (getList recipe "steps").foldl (vDevRef (deviceIds recipe)) r

/-- Version-compatibility check of `_validate_custom_rules` (its last
statement): a mismatch with the validator's configured schema version
appends a warning and never touches `valid`. -/
def vVersionWarn (sv : String) (recipe : Json) (r : ValidationResult) : ValidationResult :=
  match recipe.get "rcip_version" with
  | some v =>
    if jbeq v (.str sv) then r
    else r.addWarning ("Recipe version " ++ pyStr v
      ++ " may not be fully compatible with validator version " ++ sv)
  | none => r

/-- `_validate_custom_rules(recipe, result)`. -/
def _validate_custom_rules (sv : String) (recipe : Json) (r : ValidationResult) : ValidationResult :=
  vVersionWarn sv recipe
    (_validate_references recipe
      (foldIdx _validate_step (getList recipe "steps") 0
        (foldIdx _validate_ingredient (getList recipe "ingredients") 0
          (vRecipeId recipe r))))

/-- `meta.get('total_time_minutes', 0)` viewed as a Python number
(booleans are ints in Python; non-numbers would raise on `>` and are
modelled as failing the comparison). -/
def timeVal : Json → Option Int
  | .num n => some n
  | .bool b => some (if b then 1 else 0)
  | _ => none

/-- Round `p / q` to the nearest integer, ties to even (`q > 0`). -/
def rheDiv (p q : Nat) : Nat :=
  let t := p / q
  let r := p % q
  if 2 * r < q then t
  else if q < 2 * r then t + 1
  else if t % 2 = 0 then t else t + 1

/-- Floor of the base-2 logarithm, with explicit recursion fuel (the
fuel 1100 below makes it exact for every `m < 2^1100`, which covers
everything under `overflowBound < 2^1030`). -/
def log2Fuel : Nat → Nat → Nat
  | 0, _ => 0
  | fuel + 1, m => if 2 ≤ m then log2Fuel fuel (m / 2) + 1 else 0

def natLog2 (m : Nat) : Nat := log2Fuel 1100 m

/-- Round-half-even of `n / (60 * 2^e)` for an integer exponent `e`,
computed exactly over the naturals. -/
def scaled60 (n : Nat) (e : Int) : Nat :=
  if 0 ≤ e then rheDiv n (60 * 2 ^ e.toNat)
  else rheDiv (n * 2 ^ (-e).toNat) 60

/-- CPython `n / 60` for a positive int `n`: the IEEE-754 binary64
value nearest to `n / 60` (ties to even), returned as a pair `(m, e)`
of value `m * 2^e`.  With `a = floor(log2 n)`, the quotient lies in
`(2^(a-6), 2^(a-4))`, so its binade is `a-6` or `a-5`: rounding first
on the `2^(a-58)` grid and redoing one grid coarser when the mantissa
reaches `2^53` yields the correctly rounded double (an `m = 2^53` at a
binade boundary denotes the same value as mantissa `2^52` one binade
up).  Faithful below `overflowBound`, past which CPython raises
`OverflowError` instead of returning a result. -/
def divDouble60 (n : Nat) : Nat × Int :=
  let a := natLog2 n
  let e1 : Int := (a : Int) - 58
  let m1 := scaled60 n e1
  if 2 ^ 53 ≤ m1 then (scaled60 n (e1 + 1), e1 + 1) else (m1, e1)

/-- CPython `f"{x:.1f}"` for a positive finite double `x = m * 2^e`:
the exact binary value of the double rounded to one decimal place,
ties to even. -/
def fmtDouble1 (m : Nat) (e : Int) : String :=
  let tenths := if 0 ≤ e then m * 10 * 2 ^ e.toNat
    else rheDiv (m * 10) (2 ^ (-e).toNat)
  toString (tenths / 10) ++ "." ++ toString (tenths % 10)

/-- The smallest positive `n` for which CPython's `n / 60` overflows a
double (the quotient reaches the rounding threshold
`2^1024 - 2^970`): for `n` at or above it the f-string raises
`OverflowError` and `validate_recipe` returns nothing at all. -/
def overflowBound : Nat := 60 * (2 ^ 1024 - 2 ^ 970)

/-- `f"{total_time / 60:.1f}"`: CPython divides the int by 60 into a
correctly rounded double and formats that double's exact value to one
decimal place. -/
def fmtHours (n : Int) : String :=
  fmtDouble1 (divDouble60 n.toNat).1 (divDouble60 n.toNat).2

/-- The long-cooking-time advisory message. -/
def timeWarning (n : Int) : String :=
  "Very long cooking time (" ++ toString n ++ " min / " ++ fmtHours n ++ " hours)"

/-- `meta = recipe.get('meta', {})`. -/
def metaOf (recipe : Json) : Json :=
  recipe.getD "meta" (Json.obj [])

/-- `if key not in j: warnings.append(msg)`. -/
def warnIfMissing (j : Json) (key msg : String) (w : List String) : List String :=
  if (j.get key).isSome then w else w ++ [msg]

/-- `if not any('nutritional' in ing for ...): warnings.append(...)`. -/
def warnNoNutritional (recipe : Json) (w : List String) : List String :=
  if (getList recipe "ingredients").any (fun ing => (ing.get "nutritional").isSome)
  then w else w ++ ["No nutritional data provided for any ingredient"]

/-- `if not any(ing.get('external_ids', {}) for ...): warnings.append(...)`. -/
def warnNoExternalIds (recipe : Json) (w : List String) : List String :=
  if (getList recipe "ingredients").any (fun ing => truthy (ing.getD "external_ids" (Json.obj [])))
  then w else w ++ ["No external IDs (USDA, GTIN, etc.) provided"]

/-- `if recipe.get('device_profiles') and not recipe.get('sensors')`. -/
def warnDeviceNoSensors (recipe : Json) (w : List String) : List String :=
  if truthy (recipe.getD "device_profiles" Json.null)
      && !truthy (recipe.getD "sensors" Json.null)
  then w ++ ["Device profiles defined but no sensors specified"] else w

/-- `total_time = meta.get('total_time_minutes', 0); if total_time > 1440`. -/
def warnLongTime (recipe : Json) (w : List String) : List String :=
  match timeVal ((metaOf recipe).getD "total_time_minutes" (Json.num 0)) with
  | some n => if 1440 < n then w ++ [timeWarning n] else w
  | none => w

/-- `if not recipe.get('images')`. -/
def warnNoImages (recipe : Json) (w : List String) : List String :=
  if truthy (recipe.getD "images" Json.null) then w
  else w ++ ["No images provided for recipe"]

/-- `_check_warnings(recipe)`: the advisory rule set; it returns a
fresh list of warnings, appending in source order. -/
def _check_warnings (recipe : Json) : List String :=
  warnNoImages recipe
    (warnLongTime recipe
      (warnDeviceNoSensors recipe
        (warnNoExternalIds recipe
          (warnNoNutritional recipe
            (warnIfMissing (metaOf recipe) "difficulty" "Missing recommended field: meta.difficulty"
              (warnIfMissing (metaOf recipe) "servings" "Missing recommended field: meta.servings"
                (warnIfMissing (metaOf recipe) "description" "Missing recommended field: meta.description"
                  [])))))))

/-- Entries of an `allergens` list that are strings (Python collects
arbitrary values into a set and sorts them; mixed non-string entries
would make `sorted` raise and are omitted from the model). -/
def strItems : Json → List String
  | .arr xs => xs.filterMap (fun j => match j with | .str s => some s | _ => none)
  | _ => []

/-- Insert into a ≤-sorted list of strings. -/
def insortStr (s : String) : List String → List String
  | [] => [s]
  | t :: ts => if s ≤ t then s :: t :: ts else t :: insortStr s ts

/-- Ascending sort of a list of strings (Python `sorted`). -/
def sortStrs (xs : List String) : List String :=
  xs.foldr insortStr []

/-- Deduplicate a list of strings (Python `set`). -/
def dedupStrs : List String → List String
  | [] => []
  | x :: xs =>
    let r := dedupStrs xs
    if r.contains x then r else x :: r

/-- The allergen union of `_get_recipe_info`: `sorted(list(allergens))`. -/
def collectAllergens (recipe : Json) : List String :=
  sortStrs (dedupStrs
    (((getList recipe "ingredients").map
      (fun ing => strItems (ing.getD "allergens" (Json.arr [])))).flatten))

/-- `_get_recipe_info(recipe)`. -/
def _get_recipe_info (recipe : Json) : RecipeInfo :=
  let meta := metaOf recipe
  { name := meta.getD "name" (Json.str "Unknown")
    version := recipe.getD "rcip_version" Json.null
    recipe_version := meta.getD "version" Json.null
    ingredient_count := (getList recipe "ingredients").length
    step_count := (getList recipe "steps").length
    has_device_profiles := truthy (recipe.getD "device_profiles" Json.null)
    has_sensors := truthy (recipe.getD "sensors" Json.null)
    allergens := collectAllergens recipe
    diet_labels := meta.getD "diet_labels" (Json.arr [])
    difficulty := meta.getD "difficulty" (Json.str "not specified")
    total_time := meta.getD "total_time_minutes" (Json.str "not specified") }

/-- The result as it stands after the schema-conformance stage:
`valid` flips and the rendered messages are collected exactly when the
external checker reported violations. -/
def initResult (schemaFindings : List String) : ValidationResult :=
  { valid := schemaFindings.isEmpty, errors := schemaFindings,
    warnings := [], info := none }

/-- The `ValidationResult` built by `validate_recipe`: schema stage,
then `_validate_custom_rules`, then the reassignment
`result.warnings = self._check_warnings(recipe)` (which, as in the
source, replaces whatever warnings the custom rules appended), then
`result.info = self._get_recipe_info(recipe)`. -/
def validateResult (sv : String) (schemaFindings : List String) (recipe : Json) :
    ValidationResult :=
  let r1 := _validate_custom_rules sv recipe (initResult schemaFindings)
  { r1 with warnings := _check_warnings recipe, info := some (_get_recipe_info recipe) }

/-- `validate_recipe(recipe)` on an initialized validator: returns the
result and the validator with its stats counters bumped. -/
def validate_recipe (v : RCIPValidator) (schemaFindings : List String) (recipe : Json) :
    ValidationResult × RCIPValidator :=
  let r := validateResult v.schema_version schemaFindings recipe
  (r, { v with stats :=
    { validated := v.stats.validated + 1
      passed := v.stats.passed + (if r.valid then 1 else 0)
      failed := v.stats.failed + (if r.valid then 0 else 1) } })

/-- `reset_stats()`. -/
def reset_stats (v : RCIPValidator) : RCIPValidator :=
  { v with stats := ⟨0, 0, 0⟩ }

/-- The operations that touch a validation session's state. -/
inductive SessionOp where
  | validateDoc : List String → Json → SessionOp
  | resetStats : SessionOp

/-- Apply one session operation to the validator. -/
def applyOp (v : RCIPValidator) : SessionOp → RCIPValidator
  | .validateDoc sf d => (validate_recipe v sf d).2
  | .resetStats => reset_stats v

/-- Run a sequence of session operations. -/
def runOps (v : RCIPValidator) (ops : List SessionOp) : RCIPValidator :=
  ops.foldl applyOp v

/-- Remove every binding of `key` from a field list. -/
def eraseField : List (String × Json) → String → List (String × Json)
  | [], _ => []
  | (k, v) :: fs, key =>
    if k = key then eraseField fs key else (k, v) :: eraseField fs key

/-- A JSON object with the binding of `key` removed (identity on
non-objects). -/
def Json.eraseKey : Json → String → Json
  | .obj fs, key => .obj (eraseField fs key)
  | j, _ => j

/-- Rebind `key` in a field list, keeping its position (append when
absent), as Python dict assignment does. -/
def setField : List (String × Json) → String → Json → List (String × Json)
  | [], key, v => [(key, v)]
  | (k, w) :: fs, key, v =>
    if k = key then (k, v) :: fs else (k, w) :: setField fs key v

/-- Python `d[key] = v` on a JSON object (identity on non-objects). -/
def Json.setKey : Json → String → Json → Json
  | .obj fs, key, v => .obj (setField fs key v)
  | j, _, _ => j

/-- The finding `_validate_ingredient` makes about the `allergens`
field itself: `some` of the error message when the field is missing or
not a list, `none` when it is a list. -/
def allergensFinding (ing : Json) (index : Nat) : Option String :=
  match ing.get "allergens" with
  | none => some ("Ingredient " ++ toString index ++ ": Missing required allergens field")
  | some (.arr _) => none
  | some _ => some ("Ingredient " ++ toString index ++ ": allergens must be an array")

/-- `r'` extends `r`: rule stages only append to `errors` and only
lower `valid`.  Every transformer of `_validate_custom_rules`
satisfies this. -/
def ResExt (r r' : ValidationResult) : Prop :=
  (∃ t, r'.errors = r.errors ++ t) ∧ (r.valid = false → r'.valid = false)

/-- C1 failing input: one step referencing an undeclared ingredient. -/
def c1doc : Json :=
  .obj [("steps", .arr [.obj [("target", .arr [.str "ing-x"])]])]

/-- C2 failing input: a document declaring a different format version
than the validator's configured schema version. -/
def c2doc : Json := .obj [("rcip_version", .str "0.2")]

/-- The version-compatibility warning C2 is about. -/
def c2msg : String :=
  "Recipe version 0.2 may not be fully compatible with validator version 0.1"

/-- C3 failing input: one step referencing an undeclared device
profile. -/
def c3doc : Json :=
  .obj [("steps", .arr [.obj [("device_profile_ref", .str "dp-x")]])]

/-- The device-profile warning C3 is about. -/
def c3msg : String :=
  "Step ?: Unknown device profile " ++ apo ++ "dp-x" ++ apo

/-- The ingredient of `c4doc`. -/
def c4ing : Json := .obj [("id", .str "ing-1")]

/-- C4 witness input: a single ingredient with no `allergens` field. -/
def c4doc : Json := .obj [("ingredients", .arr [c4ing])]

/-- The step of `c5doc`. -/
def c5step : Json :=
  .obj [("step_id", .str "s-1"), ("action", .str "mix"),
        ("target", .arr [.str "ing-9"])]

/-- C5 witness input: a step targeting an undeclared ingredient id. -/
def c5doc : Json :=
  .obj [("ingredients", .arr [.obj [("id", .str "ing-1"), ("allergens", .arr [])]]),
        ("steps", .arr [c5step])]

/-- The step of `c6doc`. -/
def c6step : Json :=
  .obj [("step_id", .str "s-2"), ("action", .str "mix"),
        ("target", .arr [.str "s-1:result"])]

/-- C6 scenario input: an otherwise-valid document whose only step
targets `"s-1:result"` while no step has id `"s-1"`. -/
def c6doc : Json :=
  .obj [("ingredients", .arr [.obj [("id", .str "ing-1"), ("allergens", .arr [])]]),
        ("steps", .arr [c6step])]

/-- The single error of the C6 scenario. -/
def c6msg : String :=
  "Step s-2: Invalid step reference " ++ apo ++ "s-1:result" ++ apo

/-- C7 witness input: total time of 1500 minutes. -/
def c7doc : Json := .obj [("meta", .obj [("total_time_minutes", .num 1500)])]

/-- The step of `c10doc`. -/
def c10step : Json :=
  .obj [("step_id", .str "s-1"), ("hazards", .str "hot-surface")]

/-- C10 witness input: a step whose `hazards` is a string, not a
list. -/
def c10doc : Json := .obj [("steps", .arr [c10step])]

theorem resExt_refl (r : ValidationResult) : ResExt r r :=
  ⟨⟨[], (List.append_nil _).symm⟩, id⟩

theorem resExt_trans {r r' r'' : ValidationResult}
    (h1 : ResExt r r') (h2 : ResExt r' r'') : ResExt r r'' := by
  obtain ⟨⟨t1, e1⟩, v1⟩ := h1
  obtain ⟨⟨t2, e2⟩, v2⟩ := h2
  exact ⟨⟨t1 ++ t2, by rw [e2, e1, List.append_assoc]⟩, fun h => v2 (v1 h)⟩

theorem resExt_addError (r : ValidationResult) (m : String) :
    ResExt r (r.addError m) :=
  ⟨⟨[m], rfl⟩, fun h => h⟩

theorem resExt_addErrorInvalid (r : ValidationResult) (m : String) :
    ResExt r (r.addErrorInvalid m) :=
  ⟨⟨[m], rfl⟩, fun _ => rfl⟩

theorem resExt_addWarning (r : ValidationResult) (m : String) :
    ResExt r (r.addWarning m) :=
  ⟨⟨[], (List.append_nil _).symm⟩, fun h => h⟩

theorem ResExt.memErr {r r' : ValidationResult} (h : ResExt r r')
    {m : String} (hm : m ∈ r.errors) : m ∈ r'.errors := by
  obtain ⟨⟨t, e⟩, _⟩ := h
  rw [e]
  exact List.mem_append_left _ hm

theorem ResExt.nonnil {r r' : ValidationResult} (h : ResExt r r')
    (hne : r.errors ≠ []) : r'.errors ≠ [] := by
  obtain ⟨⟨t, e⟩, _⟩ := h
  rw [e]
  intro hc
  exact hne (List.append_eq_nil.mp hc).1

theorem resExt_foldl {α : Type} {f : ValidationResult → α → ValidationResult}
    (hf : ∀ r x, ResExt r (f r x)) :
    ∀ (xs : List α) (r : ValidationResult), ResExt r (xs.foldl f r)
  | [], r => resExt_refl r
  | x :: xs, r => resExt_trans (hf r x) (resExt_foldl hf xs (f r x))

theorem resExt_foldIdx {f : Json → Nat → ValidationResult → ValidationResult}
    (hf : ∀ x i r, ResExt r (f x i r)) :
    ∀ (xs : List Json) (i : Nat) (r : ValidationResult), ResExt r (foldIdx f xs i r)
  | [], _, r => resExt_refl r
  | x :: xs, i, r => resExt_trans (hf x i r) (resExt_foldIdx hf xs (i + 1) (f x i r))

theorem resExt_vRecipeId (recipe : Json) (r : ValidationResult) :
    ResExt r (vRecipeId recipe r) := by
  unfold vRecipeId
  split
  · split
    · exact resExt_refl r
    · exact resExt_addErrorInvalid r _
  · exact resExt_refl r

theorem resExt_vIngId (ing : Json) (i : Nat) (r : ValidationResult) :
    ResExt r (vIngId ing i r) := by
  unfold vIngId
  split
  · split
    · exact resExt_refl r
    · exact resExt_addErrorInvalid r _
  · exact resExt_refl r

theorem resExt_vIngAllergens (ing : Json) (i : Nat) (r : ValidationResult) :
    ResExt r (vIngAllergens ing i r) := by
  unfold vIngAllergens
  split
  · exact resExt_addErrorInvalid r _
  · refine resExt_foldl (fun r a => ?_) _ r
    split
    · exact resExt_refl r
    · exact resExt_addError r _
  · exact resExt_addErrorInvalid r _

theorem resExt_vIngAmountValue (ma : Json) (i : Nat) (r : ValidationResult) :
    ResExt r (vIngAmountValue ma i r) := by
  unfold vIngAmountValue
  split
  · exact resExt_addError r _
  · exact resExt_refl r

theorem resExt_vIngAmountUnit (ma : Json) (i : Nat) (r : ValidationResult) :
    ResExt r (vIngAmountUnit ma i r) := by
  unfold vIngAmountUnit
  split
  · exact resExt_addError r _
  · split
    · exact resExt_refl r
    · exact resExt_addWarning r _

theorem resExt_vIngAmount (ing : Json) (i : Nat) (r : ValidationResult) :
    ResExt r (vIngAmount ing i r) := by
  unfold vIngAmount
  split
  · exact resExt_trans (resExt_vIngAmountValue _ i r) (resExt_vIngAmountUnit _ i _)
  · exact resExt_refl r

theorem resExt_validate_ingredient (ing : Json) (i : Nat) (r : ValidationResult) :
    ResExt r (_validate_ingredient ing i r) :=
  resExt_trans (resExt_vIngId ing i r)
    (resExt_trans (resExt_vIngAllergens ing i _) (resExt_vIngAmount ing i _))

theorem resExt_vStepId (step : Json) (i : Nat) (r : ValidationResult) :
    ResExt r (vStepId step i r) := by
  unfold vStepId
  split
  · split
    · exact resExt_refl r
    · exact resExt_addErrorInvalid r _
  · exact resExt_refl r

theorem resExt_vStepAction (step : Json) (i : Nat) (r : ValidationResult) :
    ResExt r (vStepAction step i r) := by
  unfold vStepAction
  split
  · split
    · exact resExt_refl r
    · exact resExt_addError r _
  · exact resExt_refl r

theorem resExt_vStepHazards (step : Json) (i : Nat) (r : ValidationResult) :
    ResExt r (vStepHazards step i r) := by
  unfold vStepHazards
  split
  · refine resExt_foldl (fun r h => ?_) _ r
    split
    · exact resExt_refl r
    · exact resExt_addWarning r _
  · exact resExt_refl r

theorem resExt_validate_step (step : Json) (i : Nat) (r : ValidationResult) :
    ResExt r (_validate_step step i r) :=
  resExt_trans (resExt_vStepId step i r)
    (resExt_trans (resExt_vStepAction step i _) (resExt_vStepHazards step i _))

theorem resExt_vTarget (ingIds stepIds : List Json) (step : Json)
    (r : ValidationResult) (t : Json) : ResExt r (vTarget ingIds stepIds step r t) := by
  unfold vTarget
  split
  · split
    · exact resExt_addError r _
    · split
      · split
        · exact resExt_refl r
        · exact resExt_addError r _
      · exact resExt_refl r
  · exact resExt_refl r

theorem resExt_vStepTargets (ingIds stepIds : List Json)
    (r : ValidationResult) (step : Json) : ResExt r (vStepTargets ingIds stepIds r step) := by
  unfold vStepTargets
  split
  · exact resExt_foldl (fun r t => resExt_vTarget ingIds stepIds step r t) _ r
  · exact resExt_refl r

theorem resExt_vDevRef (devIds : List Json) (r : ValidationResult) (step : Json) :
    ResExt r (vDevRef devIds r step) := by
  unfold vDevRef
  split
  · split
    · exact resExt_refl r
    · exact resExt_addWarning r _
  · exact resExt_refl r

theorem resExt_validate_references (recipe : Json) (r : ValidationResult) :
    ResExt r (_validate_references recipe r) := by
  unfold _validate_references
  exact resExt_trans
    (resExt_foldl (resExt_vStepTargets (ingredientIds recipe) (stepIdSet recipe)) _ r)
    (resExt_foldl (resExt_vDevRef (deviceIds recipe)) _ _)

theorem resExt_vVersionWarn (sv : String) (recipe : Json) (r : ValidationResult) :
    ResExt r (vVersionWarn sv recipe r) := by
  unfold vVersionWarn
  split
  · split
    · exact resExt_refl r
    · exact resExt_addWarning r _
  · exact resExt_refl r

theorem resExt_validate_custom_rules (sv : String) (recipe : Json) (r : ValidationResult) :
    ResExt r (_validate_custom_rules sv recipe r) := by
  unfold _validate_custom_rules
  exact resExt_trans (resExt_vRecipeId recipe r)
    (resExt_trans (resExt_foldIdx resExt_validate_ingredient _ 0 _)
      (resExt_trans (resExt_foldIdx resExt_validate_step _ 0 _)
        (resExt_trans (resExt_validate_references recipe _)
          (resExt_vVersionWarn sv recipe _))))

theorem foldl_pres {α : Type} {f : ValidationResult → α → ValidationResult}
    {P : ValidationResult → Prop} (hf : ∀ r x, P r → P (f r x)) :
    ∀ (xs : List α) (r : ValidationResult), P r → P (xs.foldl f r)
  | [], _, h => h
  | x :: xs, r, h => foldl_pres hf xs (f r x) (hf r x h)

theorem foldl_estab {α : Type} {f : ValidationResult → α → ValidationResult}
    {P : ValidationResult → Prop} (hf : ∀ r y, P r → P (f r y)) {x : α}
    (hmk : ∀ r, P (f r x)) :
    ∀ (xs : List α), x ∈ xs → ∀ r, P (xs.foldl f r)
  | [], hx, _ => absurd hx (List.not_mem_nil x)
  | y :: ys, hx, r => by
    rcases List.mem_cons.mp hx with h | h
    · subst h
      exact foldl_pres hf ys (f r x) (hmk r)
    · exact foldl_estab hf hmk ys h (f r y)

theorem foldIdx_pres {f : Json → Nat → ValidationResult → ValidationResult}
    {P : ValidationResult → Prop} (hf : ∀ x i r, P r → P (f x i r)) :
    ∀ (xs : List Json) (i : Nat) (r : ValidationResult), P r → P (foldIdx f xs i r)
  | [], _, _, h => h
  | x :: xs, i, r, h => foldIdx_pres hf xs (i + 1) (f x i r) (hf x i r h)

theorem foldIdx_estab {f : Json → Nat → ValidationResult → ValidationResult}
    {P : ValidationResult → Prop} (hf : ∀ x i r, P r → P (f x i r)) (x : Json) :
    ∀ (xs : List Json) (p start : Nat), xs.get? p = some x →
      (∀ r, P (f x (start + p) r)) → ∀ r, P (foldIdx f xs start r)
  | [], p, _, hx, _, _ => by simp at hx
  | y :: ys, 0, start, hx, hmk, r => by
    simp at hx
    subst hx
    exact foldIdx_pres hf ys (start + 1) (f y start r) (by simpa using hmk r)
  | y :: ys, p + 1, start, hx, hmk, r => by
    have hx' : ys.get? p = some x := by simpa using hx
    exact foldIdx_estab hf x ys p (start + 1) hx'
      (fun r => by
        rw [show start + 1 + p = start + (p + 1) from by omega]
        exact hmk r)
      (f y start r)

theorem validateResult_errors (sv : String) (sf : List String) (recipe : Json) :
    (validateResult sv sf recipe).errors
      = (_validate_custom_rules sv recipe (initResult sf)).errors := rfl

theorem validateResult_valid (sv : String) (sf : List String) (recipe : Json) :
    (validateResult sv sf recipe).valid
      = (_validate_custom_rules sv recipe (initResult sf)).valid := rfl

theorem validateResult_warnings (sv : String) (sf : List String) (recipe : Json) :
    (validateResult sv sf recipe).warnings = _check_warnings recipe := rfl

/-- C1: the claim says `valid == (errors is empty)` after all rule
stages.  The code violates this: `_validate_references` (and several
other checks) append to `errors` without setting `valid = False`.  On
`c1doc` — a document whose single step targets the undeclared
ingredient `"ing-x"` and whose schema stage reports no violation — the
returned result carries one error yet `valid` is still `true`. -/
theorem validity_decoupled_from_errors :
    (validateResult "0.1" [] c1doc).valid = true ∧
    (validateResult "0.1" [] c1doc).errors
      = ["Step ?: Invalid ingredient reference " ++ apo ++ "ing-x" ++ apo] :=
  ⟨rfl, rfl⟩

/-- C2: the claim says a document whose `rcip_version` differs from
the validator's configured schema version yields a result whose
`warnings` contain the incompatibility warning.  The code appends that
warning inside `_validate_custom_rules`, but `validate_recipe` then
reassigns `result.warnings = self._check_warnings(recipe)`, discarding
it: on `c2doc` the warning is present after the custom rules yet
absent from the returned result.  (The `valid`-unaffected part of the
claim does hold.) -/
theorem version_warning_dropped :
    c2msg ∈ (_validate_custom_rules "0.1" c2doc (initResult [])).warnings ∧
    c2msg ∉ (validateResult "0.1" [] c2doc).warnings ∧
    (validateResult "0.1" [] c2doc).valid = true :=
  ⟨by decide, by decide, rfl⟩

/-- C3: the claim says a step with an unresolvable
`device_profile_ref` yields a result whose `warnings` contain the
unknown-device-profile warning (and no error).  The code appends that
warning inside `_validate_references`, but `validate_recipe` then
reassigns `result.warnings = self._check_warnings(recipe)`, discarding
it: on `c3doc` the warning is present after the custom rules yet
absent from the returned result.  (The no-error part of the claim does
hold: `errors` stays empty.) -/
theorem device_profile_warning_dropped :
    c3msg ∈ (_validate_custom_rules "0.1" c3doc (initResult [])).warnings ∧
    c3msg ∉ (validateResult "0.1" [] c3doc).warnings ∧
    (validateResult "0.1" [] c3doc).errors = [] :=
  ⟨by decide, by decide, rfl⟩

/-- C8: validating the same document twice with the same validator
returns results with identical `errors`, `warnings` and `info`; the
only validator state that changes between the calls is the stats
counters (the configured schema version is untouched). -/
theorem validate_recipe_idempotent (v : RCIPValidator) (sf : List String) (d : Json) :
    (validate_recipe (validate_recipe v sf d).2 sf d).1.errors
        = (validate_recipe v sf d).1.errors ∧
    (validate_recipe (validate_recipe v sf d).2 sf d).1.warnings
        = (validate_recipe v sf d).1.warnings ∧
    (validate_recipe (validate_recipe v sf d).2 sf d).1.info
        = (validate_recipe v sf d).1.info ∧
    (validate_recipe (validate_recipe v sf d).2 sf d).2.schema_version
        = v.schema_version :=
  ⟨rfl, rfl, rfl, rfl⟩

theorem stats_inv_runOps :
    ∀ (ops : List SessionOp) (v : RCIPValidator),
      v.stats.validated = v.stats.passed + v.stats.failed →
      (runOps v ops).stats.validated
        = (runOps v ops).stats.passed + (runOps v ops).stats.failed
  | [], _, h => h
  | op :: ops, v, h => by
    have h' : (applyOp v op).stats.validated
        = (applyOp v op).stats.passed + (applyOp v op).stats.failed := by
      cases op with
      | validateDoc sf d =>
        cases hr : (validateResult v.schema_version sf d).valid <;>
          simp [applyOp, validate_recipe, hr] <;> omega
      | resetStats => simp [applyOp, reset_stats]
    exact stats_inv_runOps ops (applyOp v op) h'

/-- C9: after any sequence of `validate_recipe` / `reset_stats` calls
starting from a fresh validator, `validated = passed + failed`; one
`validate_recipe` call increments `validated` by exactly one and
increments `passed` when the returned result is valid and `failed`
otherwise; `reset_stats` zeroes the counters; neither operation
touches anything but `stats`. -/
theorem session_stats_accounting (sv : String) (ops : List SessionOp)
    (v : RCIPValidator) (sf : List String) (d : Json) :
    (runOps (mkValidator sv) ops).stats.validated
      = (runOps (mkValidator sv) ops).stats.passed
        + (runOps (mkValidator sv) ops).stats.failed ∧
    (validate_recipe v sf d).2.stats.validated = v.stats.validated + 1 ∧
    (validate_recipe v sf d).2.stats.passed
      = v.stats.passed + (if (validate_recipe v sf d).1.valid then 1 else 0) ∧
    (validate_recipe v sf d).2.stats.failed
      = v.stats.failed + (if (validate_recipe v sf d).1.valid then 0 else 1) ∧
    (validate_recipe v sf d).2.schema_version = v.schema_version ∧
    (reset_stats v).stats = ⟨0, 0, 0⟩ ∧
    (reset_stats v).schema_version = v.schema_version :=
  ⟨stats_inv_runOps ops (mkValidator sv) rfl, rfl, rfl, rfl, rfl, rfl, rfl⟩

theorem addError_mem (r : ValidationResult) (m : String) :
    m ∈ (r.addError m).errors :=
  List.mem_append_right _ (List.mem_singleton.mpr rfl)

theorem addErrorInvalid_mem (r : ValidationResult) (m : String) :
    m ∈ (r.addErrorInvalid m).errors :=
  List.mem_append_right _ (List.mem_singleton.mpr rfl)

theorem ResExt.presMV {r r' : ValidationResult} (h : ResExt r r') {m : String}
    (hp : m ∈ r.errors ∧ r.valid = false) : m ∈ r'.errors ∧ r'.valid = false :=
  ⟨h.memErr hp.1, h.2 hp.2⟩

theorem mem_warnNoImages (recipe : Json) {w : List String} {m : String}
    (hm : m ∈ w) : m ∈ warnNoImages recipe w := by
  unfold warnNoImages
  split
  · exact hm
  · exact List.mem_append_left _ hm

theorem warnLongTime_mem (recipe : Json) (n : Int) (w : List String)
    (hmeta : (metaOf recipe).get "total_time_minutes" = some (Json.num n))
    (hn : 1440 < n) : timeWarning n ∈ warnLongTime recipe w := by
  unfold warnLongTime
  rw [show (metaOf recipe).getD "total_time_minutes" (Json.num 0) = Json.num n from by
    simp [Json.getD, hmeta]]
  simp only [timeVal]
  rw [if_pos hn]
  exact List.mem_append_right _ (List.mem_singleton.mpr rfl)

/-- C7: whenever `meta.total_time_minutes` is a number strictly above
1440, the returned warnings contain the long-cooking-time advisory,
whose text renders the time in hours with one decimal place exactly as
CPython does (`fmtHours`: the int is divided by 60 into a correctly
rounded IEEE binary64 value whose exact binary value is then rounded
to one decimal, ties to even — e.g. 1443 renders as `"24.1"`); at the
spec's scenario value 1500 the message contains the substring
`"25.0 hours"`.  The `n < overflowBound` hypothesis confines the
statement to the inputs where the program returns at all: at or above
that bound CPython raises `OverflowError` inside the f-string.  (This
advisory is produced by `_check_warnings` and therefore survives the
warnings reassignment in `validate_recipe`.) -/
theorem long_time_warning (sv : String) (sf : List String) (recipe : Json) (n : Int)
    (hmeta : (metaOf recipe).get "total_time_minutes" = some (Json.num n))
    (hn : 1440 < n) (hof : n < (overflowBound : Int)) :
    timeWarning n ∈ (validateResult sv sf recipe).warnings ∧
    strContains (timeWarning 1500) "25.0 hours" = true := by
  constructor
  · rw [validateResult_warnings]
    unfold _check_warnings
    exact mem_warnNoImages recipe (warnLongTime_mem recipe n _ hmeta hn)
  · decide

set_option maxRecDepth 8000 in
/-- Closed instance of `long_time_warning` at `c7doc`
(`total_time_minutes = 1500`). -/
theorem long_time_warning_witness :
    (metaOf c7doc).get "total_time_minutes" = some (Json.num 1500) ∧
    (1440 : Int) < 1500 ∧
    (1500 : Int) < (overflowBound : Int) ∧
    (timeWarning 1500 ∈ (validateResult "0.1" [] c7doc).warnings ∧
      strContains (timeWarning 1500) "25.0 hours" = true) :=
  ⟨rfl, by decide, by decide,
    long_time_warning "0.1" [] c7doc 1500 rfl (by decide) (by decide)⟩

theorem listStartsWith_append : ∀ (x y : List Char), listStartsWith (x ++ y) x = true
  | [], y => by cases y <;> rfl
  | c :: cs, y => by simp [listStartsWith, listStartsWith_append cs y]

theorem strStarts_append (a b : String) : strStarts (a ++ b) a = true :=
  listStartsWith_append a.data b.data

theorem str_append_assoc (a b c : String) : a ++ b ++ c = a ++ (b ++ c) :=
  congrArg String.mk (List.append_assoc a.data b.data c.data)

theorem strStarts_of_split (m p t : String) (h : m = p ++ t) : strStarts m p = true := by
  subst h
  exact strStarts_append p t

theorem vIngAllergens_creates (ing : Json) (i : Nat) (r : ValidationResult) (msg : String)
    (h : allergensFinding ing i = some msg) :
    msg ∈ (vIngAllergens ing i r).errors ∧ (vIngAllergens ing i r).valid = false := by
  unfold allergensFinding at h
  unfold vIngAllergens
  rcases hh : ing.get "allergens" with _ | v
  · rw [hh] at h
    simp only [Option.some.injEq] at h
    subst h
    exact ⟨addErrorInvalid_mem r _, rfl⟩
  · rw [hh] at h
    cases v
    case arr items => simp at h
    all_goals
      simp only [Option.some.injEq] at h
      subst h
      exact ⟨addErrorInvalid_mem r _, rfl⟩

theorem validate_ingredient_creates (ing : Json) (i : Nat) (r : ValidationResult)
    (msg : String) (h : allergensFinding ing i = some msg) :
    msg ∈ (_validate_ingredient ing i r).errors ∧
    (_validate_ingredient ing i r).valid = false :=
  (resExt_vIngAmount ing i _).presMV (vIngAllergens_creates ing i (vIngId ing i r) msg h)

theorem allergensFinding_prefix (ing : Json) (i : Nat) (msg : String)
    (h : allergensFinding ing i = some msg) :
    strStarts msg ("Ingredient " ++ toString i ++ ":") = true := by
  have split1 : "Ingredient " ++ toString i ++ ": Missing required allergens field"
      = ("Ingredient " ++ toString i ++ ":") ++ " Missing required allergens field" := by
    rw [str_append_assoc ("Ingredient " ++ toString i)]
    exact congrArg (fun z => "Ingredient " ++ toString i ++ z) (by decide)
  have split2 : "Ingredient " ++ toString i ++ ": allergens must be an array"
      = ("Ingredient " ++ toString i ++ ":") ++ " allergens must be an array" := by
    rw [str_append_assoc ("Ingredient " ++ toString i)]
    exact congrArg (fun z => "Ingredient " ++ toString i ++ z) (by decide)
  unfold allergensFinding at h
  rcases hh : ing.get "allergens" with _ | v
  · rw [hh] at h
    simp only [Option.some.injEq] at h
    subst h
    exact strStarts_of_split _ _ _ split1
  · rw [hh] at h
    cases v
    case arr items => simp at h
    all_goals
      simp only [Option.some.injEq] at h
      subst h
      exact strStarts_of_split _ _ _ split2

/-- C4: a document containing an ingredient (at position `i`) whose
`allergens` field is missing or not a list validates to
`valid = false`, with the corresponding error message — which starts
with that ingredient's position index — among the returned errors. -/
theorem allergens_required_error (sv : String) (sf : List String) (recipe ing : Json)
    (i : Nat) (msg : String)
    (hi : (getList recipe "ingredients").get? i = some ing)
    (hbad : allergensFinding ing i = some msg) :
    (validateResult sv sf recipe).valid = false ∧
    msg ∈ (validateResult sv sf recipe).errors ∧
    strStarts msg ("Ingredient " ++ toString i ++ ":") = true := by
  have hP : msg ∈ (_validate_custom_rules sv recipe (initResult sf)).errors ∧
      (_validate_custom_rules sv recipe (initResult sf)).valid = false := by
    unfold _validate_custom_rules
    have hing : msg ∈ (foldIdx _validate_ingredient (getList recipe "ingredients") 0
          (vRecipeId recipe (initResult sf))).errors ∧
        (foldIdx _validate_ingredient (getList recipe "ingredients") 0
          (vRecipeId recipe (initResult sf))).valid = false :=
      foldIdx_estab (P := fun r => msg ∈ r.errors ∧ r.valid = false)
        (fun x j r hp => (resExt_validate_ingredient x j r).presMV hp) ing
        (getList recipe "ingredients") i 0 hi
        (fun r => by simpa using validate_ingredient_creates ing i r msg hbad)
        (vRecipeId recipe (initResult sf))
    exact (resExt_vVersionWarn sv recipe _).presMV
      ((resExt_validate_references recipe _).presMV
        (foldIdx_pres (P := fun r => msg ∈ r.errors ∧ r.valid = false)
          (fun x j r hp => (resExt_validate_step x j r).presMV hp)
          (getList recipe "steps") 0 _ hing))
  exact ⟨by rw [validateResult_valid]; exact hP.2,
    by rw [validateResult_errors]; exact hP.1,
    allergensFinding_prefix ing i msg hbad⟩

/-- Closed instance of `allergens_required_error` at `c4doc` (its only
ingredient lacks the `allergens` field). -/
theorem allergens_required_error_witness :
    (getList c4doc "ingredients").get? 0 = some c4ing ∧
    allergensFinding c4ing 0 = some "Ingredient 0: Missing required allergens field" ∧
    ((validateResult "0.1" [] c4doc).valid = false ∧
      "Ingredient 0: Missing required allergens field" ∈ (validateResult "0.1" [] c4doc).errors ∧
      strStarts "Ingredient 0: Missing required allergens field"
        ("Ingredient " ++ toString 0 ++ ":") = true) :=
  ⟨rfl, rfl, allergens_required_error "0.1" [] c4doc c4ing 0
    "Ingredient 0: Missing required allergens field" rfl rfl⟩

theorem target_error_mem (sv : String) (sf : List String) (recipe step : Json)
    (ts : List Json) (t : String) (msg : String)
    (hstep : step ∈ getList recipe "steps")
    (hts : step.get "target" = some (Json.arr ts))
    (hmemt : Json.str t ∈ ts)
    (hmk : ∀ r, msg ∈ (vTarget (ingredientIds recipe) (stepIdSet recipe) step r (Json.str t)).errors) :
    msg ∈ (validateResult sv sf recipe).errors := by
  rw [validateResult_errors]
  unfold _validate_custom_rules _validate_references
  have hstepP : ∀ r : ValidationResult,
      msg ∈ (vStepTargets (ingredientIds recipe) (stepIdSet recipe) r step).errors := by
    intro r
    unfold vStepTargets
    rw [hts]
    exact foldl_estab (P := fun r => msg ∈ r.errors)
      (fun r x hp => (resExt_vTarget _ _ step r x).memErr hp) hmk ts hmemt r
  have hAfter : msg ∈ ((getList recipe "steps").foldl
      (vStepTargets (ingredientIds recipe) (stepIdSet recipe))
      (foldIdx _validate_step (getList recipe "steps") 0
        (foldIdx _validate_ingredient (getList recipe "ingredients") 0
          (vRecipeId recipe (initResult sf))))).errors :=
    foldl_estab (P := fun r => msg ∈ r.errors)
      (fun r y hp => (resExt_vStepTargets _ _ r y).memErr hp) hstepP
      (getList recipe "steps") hstep _
  exact (resExt_vVersionWarn sv recipe _).memErr
    ((resExt_foldl (resExt_vDevRef (deviceIds recipe)) _ _).memErr hAfter)

/-- C5: a step whose `target` list holds a string with the `ing-`
prefix that is not among the document's ingredient ids produces an
error attributed to that step's identifier (`stepAttr` renders
`step.get('step_id', '?')`, so a step with no identifier is attributed
as `"?"`). -/
theorem ingredient_ref_error (sv : String) (sf : List String) (recipe step : Json)
    (ts : List Json) (t : String)
    (hstep : step ∈ getList recipe "steps")
    (hts : step.get "target" = some (Json.arr ts))
    (hmemt : Json.str t ∈ ts)
    (hpre : strStarts t "ing-" = true)
    (hmem : jmem (Json.str t) (ingredientIds recipe) = false) :
    ("Step " ++ stepAttr step ++ ": Invalid ingredient reference " ++ apo ++ t ++ apo)
      ∈ (validateResult sv sf recipe).errors := by
  apply target_error_mem sv sf recipe step ts t _ hstep hts hmemt
  intro r
  simp only [vTarget, hpre, hmem]
  exact addError_mem r _

/-- Closed instance of `ingredient_ref_error` at `c5doc` (its step
targets the undeclared `"ing-9"`). -/
theorem ingredient_ref_error_witness :
    c5step ∈ getList c5doc "steps" ∧
    c5step.get "target" = some (Json.arr [Json.str "ing-9"]) ∧
    Json.str "ing-9" ∈ [Json.str "ing-9"] ∧
    strStarts "ing-9" "ing-" = true ∧
    jmem (Json.str "ing-9") (ingredientIds c5doc) = false ∧
    ("Step " ++ stepAttr c5step ++ ": Invalid ingredient reference " ++ apo ++ "ing-9" ++ apo)
      ∈ (validateResult "0.1" [] c5doc).errors :=
  ⟨List.mem_singleton.mpr rfl, rfl, List.mem_singleton.mpr rfl, rfl, rfl,
    ingredient_ref_error "0.1" [] c5doc c5step [Json.str "ing-9"] "ing-9"
      (List.mem_singleton.mpr rfl) rfl (List.mem_singleton.mpr rfl) rfl rfl⟩

/-- C6: on the concrete scenario document `c6doc` — otherwise valid,
with one step targeting `"s-1:result"` while no step has id `"s-1"` —
the validator produces exactly the one error `c6msg` about the
unresolved step reference.  In general, for any step target string
containing `":result"`, either the portion before the first `":"` is
a member of the document's step-id set or the returned errors are
non-empty. -/
theorem step_result_ref_checked (sv : String) (sf : List String) (recipe step : Json)
    (ts : List Json) (t : String)
    (hstep : step ∈ getList recipe "steps")
    (hts : step.get "target" = some (Json.arr ts))
    (hmemt : Json.str t ∈ ts)
    (hres : strContains t ":result" = true) :
    (validateResult "0.1" [] c6doc).errors = [c6msg] ∧
    (jmem (Json.str (headBefore (Char.ofNat 58) t)) (stepIdSet recipe) = true ∨
      (validateResult sv sf recipe).errors ≠ []) := by
  refine ⟨rfl, ?_⟩
  by_cases h1 : (strStarts t "ing-" && !jmem (Json.str t) (ingredientIds recipe)) = true
  · refine Or.inr (List.ne_nil_of_mem (target_error_mem sv sf recipe step ts t
      ("Step " ++ stepAttr step ++ ": Invalid ingredient reference " ++ apo ++ t ++ apo)
      hstep hts hmemt (fun r => ?_)))
    simp only [vTarget]
    rw [if_pos h1]
    exact addError_mem r _
  · by_cases h2 : jmem (Json.str (headBefore (Char.ofNat 58) t)) (stepIdSet recipe) = true
    · exact Or.inl h2
    · refine Or.inr (List.ne_nil_of_mem (target_error_mem sv sf recipe step ts t
        ("Step " ++ stepAttr step ++ ": Invalid step reference " ++ apo ++ t ++ apo)
        hstep hts hmemt (fun r => ?_)))
      simp only [vTarget]
      rw [if_neg h1, if_pos hres, if_neg h2]
      exact addError_mem r _

/-- Closed instance of `step_result_ref_checked` at the scenario
document itself. -/
theorem step_result_ref_checked_witness :
    c6step ∈ getList c6doc "steps" ∧
    c6step.get "target" = some (Json.arr [Json.str "s-1:result"]) ∧
    Json.str "s-1:result" ∈ [Json.str "s-1:result"] ∧
    strContains "s-1:result" ":result" = true ∧
    ((validateResult "0.1" [] c6doc).errors = [c6msg] ∧
      (jmem (Json.str (headBefore (Char.ofNat 58) "s-1:result")) (stepIdSet c6doc) = true ∨
        (validateResult "0.1" [] c6doc).errors ≠ [])) :=
  ⟨List.mem_singleton.mpr rfl, rfl, List.mem_singleton.mpr rfl, rfl,
    step_result_ref_checked "0.1" [] c6doc c6step [Json.str "s-1:result"] "s-1:result"
      (List.mem_singleton.mpr rfl) rfl (List.mem_singleton.mpr rfl) rfl⟩

theorem lookupField_eraseField (fs : List (String × Json)) (key k : String) (hk : k ≠ key) :
    lookupField (eraseField fs key) k = lookupField fs k := by
  induction fs with
  | nil => rfl
  | cons hd tl ih =>
    obtain ⟨a, v⟩ := hd
    by_cases ha : a = key
    · subst ha
      have h1 : eraseField ((a, v) :: tl) a = eraseField tl a := by simp [eraseField]
      have h2 : lookupField ((a, v) :: tl) k = lookupField tl k := by
        have hne : ¬(a = k) := fun h => hk h.symm
        simp [lookupField, hne]
      rw [h1, ih, h2]
    · have h1 : eraseField ((a, v) :: tl) key = (a, v) :: eraseField tl key := by
        simp [eraseField, ha]
      rw [h1]
      by_cases hak : a = k
      · subst hak
        simp [lookupField]
      · simp [lookupField, hak, ih]

theorem lookupField_eraseField_same (fs : List (String × Json)) (key : String) :
    lookupField (eraseField fs key) key = none := by
  induction fs with
  | nil => rfl
  | cons hd tl ih =>
    obtain ⟨a, v⟩ := hd
    by_cases ha : a = key
    · simp [eraseField, ha, ih]
    · simp [eraseField, lookupField, ha, ih]

theorem get_eraseKey_other (j : Json) (key k : String) (hk : k ≠ key) :
    (j.eraseKey key).get k = j.get k := by
  cases j <;> simp [Json.eraseKey, Json.get]
  exact lookupField_eraseField _ key k hk

theorem get_eraseKey_same (j : Json) (key : String) :
    (j.eraseKey key).get key = none := by
  cases j <;> simp [Json.eraseKey, Json.get]
  exact lookupField_eraseField_same _ key

theorem lookupField_setField_other (fs : List (String × Json)) (key k : String) (v : Json)
    (hk : k ≠ key) : lookupField (setField fs key v) k = lookupField fs k := by
  induction fs with
  | nil =>
    have hne : ¬(key = k) := fun h => hk h.symm
    simp [setField, lookupField, hne]
  | cons hd tl ih =>
    obtain ⟨a, w⟩ := hd
    by_cases ha : a = key
    · subst ha
      have h1 : setField ((a, w) :: tl) a v = (a, v) :: tl := by simp [setField]
      have hne : ¬(a = k) := fun h => hk h.symm
      rw [h1]
      simp [lookupField, hne]
    · have h1 : setField ((a, w) :: tl) key v = (a, w) :: setField tl key v := by
        simp [setField, ha]
      rw [h1]
      by_cases hak : a = k
      · subst hak
        simp [lookupField]
      · simp [lookupField, hak, ih]

theorem lookupField_setField_same (fs : List (String × Json)) (key : String) (v : Json) :
    lookupField (setField fs key v) key = some v := by
  induction fs with
  | nil => simp [setField, lookupField]
  | cons hd tl ih =>
    obtain ⟨a, w⟩ := hd
    by_cases ha : a = key
    · subst ha
      have h1 : setField ((a, w) :: tl) a v = (a, v) :: tl := by simp [setField]
      rw [h1]
      simp [lookupField]
    · have h1 : setField ((a, w) :: tl) key v = (a, w) :: setField tl key v := by
        simp [setField, ha]
      rw [h1]
      simp [lookupField, ha, ih]

theorem get_setKey_other (j : Json) (key k : String) (v : Json) (hk : k ≠ key) :
    (j.setKey key v).get k = j.get k := by
  cases j <;> simp [Json.setKey, Json.get]
  exact lookupField_setField_other _ key k v hk

theorem get_setKey_same (j : Json) (key : String) (v w : Json)
    (h : j.get key = some w) : (j.setKey key v).get key = some v := by
  cases j <;> simp [Json.get] at h
  simp [Json.setKey, Json.get]
  exact lookupField_setField_same _ key v

theorem getD_setKey_other (j : Json) (key k : String) (v d : Json) (hk : k ≠ key) :
    (j.setKey key v).getD k d = j.getD k d := by
  simp [Json.getD, get_setKey_other j key k v hk]

theorem getList_setKey_other (j : Json) (key k : String) (v : Json) (hk : k ≠ key) :
    getList (j.setKey key v) k = getList j k := by
  simp [getList, get_setKey_other j key k v hk]

theorem metaOf_setKey (j v : Json) : metaOf (j.setKey "steps" v) = metaOf j :=
  getD_setKey_other j "steps" "meta" v (Json.obj []) (by decide)

theorem foldl_set_congr {α : Type} (f : ValidationResult → α → ValidationResult) (x x' : α)
    (hfx : ∀ r, f r x = f r x') :
    ∀ (xs : List α) (p : Nat), xs.get? p = some x →
      ∀ r, xs.foldl f r = (xs.set p x').foldl f r
  | [], p, hx, _ => by simp at hx
  | y :: ys, 0, hx, r => by
    simp at hx
    subst hx
    simp [List.foldl, hfx r]
  | y :: ys, p + 1, hx, r => by
    have hx' : ys.get? p = some x := by simpa using hx
    simp only [List.set, List.foldl]
    exact foldl_set_congr f x x' hfx ys p hx' (f r y)

theorem foldIdx_set_congr (f : Json → Nat → ValidationResult → ValidationResult) (x x' : Json)
    (hfx : ∀ i r, f x i r = f x' i r) :
    ∀ (xs : List Json) (p start : Nat), xs.get? p = some x →
      ∀ r, foldIdx f xs start r = foldIdx f (xs.set p x') start r
  | [], p, _, hx, _ => by simp at hx
  | y :: ys, 0, start, hx, r => by
    simp at hx
    subst hx
    simp [List.set, foldIdx, hfx start r]
  | y :: ys, p + 1, start, hx, r => by
    have hx' : ys.get? p = some x := by simpa using hx
    simp only [List.set, foldIdx]
    exact foldIdx_set_congr f x x' hfx ys p (start + 1) hx' (f y start r)

theorem filterMap_set_congr {α β : Type} (g : α → Option β) (x x' : α) (hg : g x = g x') :
    ∀ (xs : List α) (p : Nat), xs.get? p = some x →
      xs.filterMap g = (xs.set p x').filterMap g
  | [], p, hx => by simp at hx
  | y :: ys, 0, hx => by
    simp at hx
    subst hx
    simp [List.set, List.filterMap_cons, hg]
  | y :: ys, p + 1, hx => by
    have hx' : ys.get? p = some x := by simpa using hx
    simp only [List.set, List.filterMap_cons]
    rw [filterMap_set_congr g x x' hg ys p hx']

theorem stepAttr_erase (step : Json) : stepAttr (step.eraseKey "hazards") = stepAttr step := by
  unfold stepAttr
  rw [get_eraseKey_other step "hazards" "step_id" (by decide)]

theorem vStepId_erase (step : Json) (i : Nat) (r : ValidationResult) :
    vStepId (step.eraseKey "hazards") i r = vStepId step i r := by
  unfold vStepId
  rw [get_eraseKey_other step "hazards" "step_id" (by decide)]

theorem vStepAction_erase (step : Json) (i : Nat) (r : ValidationResult) :
    vStepAction (step.eraseKey "hazards") i r = vStepAction step i r := by
  unfold vStepAction
  rw [get_eraseKey_other step "hazards" "action" (by decide)]

theorem vStepHazards_skip (step h : Json) (i : Nat) (r : ValidationResult)
    (hh : step.get "hazards" = some h) (hnl : h.isArr = false) :
    vStepHazards step i r = r := by
  unfold vStepHazards
  rw [hh]
  cases h
  case arr hs => simp [Json.isArr] at hnl
  all_goals rfl

theorem vStepHazards_erased (step : Json) (i : Nat) (r : ValidationResult) :
    vStepHazards (step.eraseKey "hazards") i r = r := by
  unfold vStepHazards
  rw [get_eraseKey_same step "hazards"]

theorem validate_step_erase_hazards (step h : Json) (hh : step.get "hazards" = some h)
    (hnl : h.isArr = false) (i : Nat) (r : ValidationResult) :
    _validate_step step i r = _validate_step (step.eraseKey "hazards") i r := by
  unfold _validate_step
  rw [vStepId_erase, vStepAction_erase, vStepHazards_erased,
    vStepHazards_skip step h i _ hh hnl]

theorem vTarget_erase (ingIds stepIds : List Json) (step : Json) :
    vTarget ingIds stepIds (step.eraseKey "hazards") = vTarget ingIds stepIds step := by
  funext r t
  cases t <;> simp [vTarget, stepAttr_erase]

theorem vStepTargets_erase (ingIds stepIds : List Json) (r : ValidationResult) (step : Json) :
    vStepTargets ingIds stepIds r (step.eraseKey "hazards")
      = vStepTargets ingIds stepIds r step := by
  unfold vStepTargets
  rw [get_eraseKey_other step "hazards" "target" (by decide), vTarget_erase]

theorem vDevRef_erase (devIds : List Json) (r : ValidationResult) (step : Json) :
    vDevRef devIds r (step.eraseKey "hazards") = vDevRef devIds r step := by
  unfold vDevRef
  rw [get_eraseKey_other step "hazards" "device_profile_ref" (by decide), stepAttr_erase]

theorem getList_eq_of_get (recipe : Json) :
    recipe.get "steps" = some (Json.arr (getList recipe "steps"))
      ∨ getList recipe "steps" = [] := by
  unfold getList
  rcases recipe.get "steps" with _ | v
  · exact Or.inr rfl
  · cases v
    case arr xs => exact Or.inl rfl
    all_goals exact Or.inr rfl

/-- C10: a step whose `hazards` field is present but not a list yields
no finding at all: the hazard vocabulary check is silently skipped, no
other rule reads the field, and the whole validation result equals
that of the same document with the `hazards` field removed from that
step. -/
theorem hazards_wrong_type_silent (sv : String) (sf : List String) (recipe step h : Json)
    (i : Nat)
    (hi : (getList recipe "steps").get? i = some step)
    (hh : step.get "hazards" = some h)
    (hnl : h.isArr = false) :
    validateResult sv sf recipe
      = validateResult sv sf (recipe.setKey "steps"
          (Json.arr ((getList recipe "steps").set i (step.eraseKey "hazards")))) := by
  rcases getList_eq_of_get recipe with hsteps | hnil
  · have hgl : getList (recipe.setKey "steps"
        (Json.arr ((getList recipe "steps").set i (step.eraseKey "hazards")))) "steps"
        = (getList recipe "steps").set i (step.eraseKey "hazards") := by
      unfold getList
      rw [get_setKey_same recipe "steps" _ _ hsteps]
    have hing : getList (recipe.setKey "steps"
        (Json.arr ((getList recipe "steps").set i (step.eraseKey "hazards")))) "ingredients"
        = getList recipe "ingredients" :=
      getList_setKey_other recipe "steps" "ingredients" _ (by decide)
    have hIds : ingredientIds (recipe.setKey "steps"
        (Json.arr ((getList recipe "steps").set i (step.eraseKey "hazards"))))
        = ingredientIds recipe := by
      unfold ingredientIds
      rw [hing]
    have hSid : stepIdSet (recipe.setKey "steps"
        (Json.arr ((getList recipe "steps").set i (step.eraseKey "hazards"))))
        = stepIdSet recipe := by
      unfold stepIdSet
      rw [hgl]
      exact (filterMap_set_congr (fun s => s.get "step_id") step (step.eraseKey "hazards")
        (get_eraseKey_other step "hazards" "step_id" (by decide)).symm
        (getList recipe "steps") i hi).symm
    have hDev : deviceIds (recipe.setKey "steps"
        (Json.arr ((getList recipe "steps").set i (step.eraseKey "hazards"))))
        = deviceIds recipe := by
      unfold deviceIds
      rw [getList_setKey_other recipe "steps" "device_profiles" _ (by decide)]
    have hcr : _validate_custom_rules sv (recipe.setKey "steps"
        (Json.arr ((getList recipe "steps").set i (step.eraseKey "hazards")))) (initResult sf)
        = _validate_custom_rules sv recipe (initResult sf) := by
      unfold _validate_custom_rules
      have hRid : ∀ r, vRecipeId (recipe.setKey "steps"
          (Json.arr ((getList recipe "steps").set i (step.eraseKey "hazards")))) r
          = vRecipeId recipe r := by
        intro r
        unfold vRecipeId
        rw [get_setKey_other recipe "steps" "id" _ (by decide)]
      have hRefs : ∀ r, _validate_references (recipe.setKey "steps"
          (Json.arr ((getList recipe "steps").set i (step.eraseKey "hazards")))) r
          = _validate_references recipe r := by
        intro r
        unfold _validate_references
        rw [hgl, hIds, hSid, hDev]
        rw [← foldl_set_congr (vStepTargets (ingredientIds recipe) (stepIdSet recipe))
          step (step.eraseKey "hazards")
          (fun r => (vStepTargets_erase (ingredientIds recipe) (stepIdSet recipe) r step).symm)
          (getList recipe "steps") i hi r]
        rw [← foldl_set_congr (vDevRef (deviceIds recipe)) step (step.eraseKey "hazards")
          (fun r => (vDevRef_erase (deviceIds recipe) r step).symm)
          (getList recipe "steps") i hi _]
      have hVer : ∀ r, vVersionWarn sv (recipe.setKey "steps"
          (Json.arr ((getList recipe "steps").set i (step.eraseKey "hazards")))) r
          = vVersionWarn sv recipe r := by
        intro r
        unfold vVersionWarn
        rw [get_setKey_other recipe "steps" "rcip_version" _ (by decide)]
      rw [hRid, hing, hgl,
        ← foldIdx_set_congr _validate_step step (step.eraseKey "hazards")
          (validate_step_erase_hazards step h hh hnl) (getList recipe "steps") i 0 hi _,
        hRefs, hVer]
    have hw : _check_warnings (recipe.setKey "steps"
        (Json.arr ((getList recipe "steps").set i (step.eraseKey "hazards"))))
        = _check_warnings recipe := by
      unfold _check_warnings warnNoImages warnLongTime warnDeviceNoSensors
        warnNoExternalIds warnNoNutritional
      rw [metaOf_setKey, hing,
        getD_setKey_other recipe "steps" "device_profiles" _ _ (by decide),
        getD_setKey_other recipe "steps" "sensors" _ _ (by decide),
        getD_setKey_other recipe "steps" "images" _ _ (by decide)]
    have hinfo : _get_recipe_info (recipe.setKey "steps"
        (Json.arr ((getList recipe "steps").set i (step.eraseKey "hazards"))))
        = _get_recipe_info recipe := by
      simp only [_get_recipe_info, collectAllergens]
      rw [metaOf_setKey, hing, hgl,
        getD_setKey_other recipe "steps" "rcip_version" _ _ (by decide),
        getD_setKey_other recipe "steps" "device_profiles" _ _ (by decide),
        getD_setKey_other recipe "steps" "sensors" _ _ (by decide)]
      simp [List.length_set]
    simp only [validateResult]
    rw [hcr, hw, hinfo]
  · rw [hnil] at hi
    simp at hi

/-- Closed instance of `hazards_wrong_type_silent` at `c10doc` (its
step carries `hazards = "hot-surface"`, a string instead of a list). -/
theorem hazards_wrong_type_silent_witness :
    (getList c10doc "steps").get? 0 = some c10step ∧
    c10step.get "hazards" = some (Json.str "hot-surface") ∧
    (Json.str "hot-surface").isArr = false ∧
    validateResult "0.1" [] c10doc
      = validateResult "0.1" [] (c10doc.setKey "steps"
          (Json.arr ((getList c10doc "steps").set 0 (c10step.eraseKey "hazards")))) :=
  ⟨rfl, rfl, rfl, hazards_wrong_type_silent "0.1" [] c10doc c10step
    (Json.str "hot-surface") 0 rfl rfl rfl⟩
